import Mathlib

/-!
# Verification of the modal-registry factory (`createModals`)

Shallow embedding of `src/packages/app/src/app/overmind/factories.ts`
(lines 169–244): the `createModals` factory, its per-modal `createModal`
closure, and the `open` / `close` actions it produces.

Modelling decisions, each matching the JavaScript source:

* JavaScript values that flow through the registry (sub-state fields,
  close payloads, default results) are modelled by `JSVal`, with the
  JavaScript notion of truthiness; `payload || modal.result` in `close`
  becomes `jsOr payload result`.
* An omitted argument (`close(name)` with no payload, `modal.result`
  absent) is the JavaScript value `undefined`, i.e. `JSVal.undefined`.
* Each `open` call allocates a fresh promise (identified by a `Nat` drawn
  from a counter) and stores its `resolve` function in the per-modal
  `resolver` slot; the promise pool maps ids to `Option JSVal`
  (`none` = still pending).  Invoking a resolver on an already-settled
  promise leaves its value unchanged (first resolution wins), exactly as
  for JavaScript promises; every invocation of a resolver function is
  additionally recorded in `resolveCalls`, since the source performs the
  call `resolver(payload || modal.result)` unconditionally whenever the
  slot is non-empty.
* Modal sub-state is an association list of field name to value;
  `Object.assign(state.modals[name], newState)` is a shallow merge where
  fields of `newState` overwrite, and all other fields are retained.
* The derived `isCurrent` flag is `root.modals.current === name`.
-/

/-- A JavaScript value as it flows through the modal registry. -/
inductive JSVal where
  | undefined : JSVal
  | null : JSVal
  | bool : Bool → JSVal
  | num : Int → JSVal
  | str : String → JSVal
deriving DecidableEq, Repr

/-- JavaScript truthiness of a `JSVal`. -/
def truthy : JSVal → Bool
  | .undefined => false
  | .null => false
  | .bool b => b
  | .num n => n != 0
  | .str s => s != ""

/-- JavaScript `a || b`: `a` when `a` is truthy, otherwise `b`. -/
def jsOr (a b : JSVal) : JSVal :=
  if truthy a then a else b

/-- Lookup in an association list (first entry with the given key). -/
def alookup {α β : Type} [DecidableEq α] : List (α × β) → α → Option β
  | [], _ => none
  | (k', v) :: rest, k => if k' = k then some v else alookup rest k

/-- Set one field of a JavaScript object (association list): overwrite
every entry with that key if present, otherwise append the new entry. -/
def setField (fields : List (String × JSVal)) (k : String) (v : JSVal) :
    List (String × JSVal) :=
  if fields.any (fun p => p.1 = k) then
    fields.map (fun p => if p.1 = k then (p.1, v) else p)
  else
    fields ++ [(k, v)]

/-- `Object.assign(target, src)`: shallow merge of `src` into `target`,
fields of `src` overwrite, other fields of `target` are retained. -/
def assignFields (target src : List (String × JSVal)) :
    List (String × JSVal) :=
  src.foldl (fun t p => setField t p.1 p.2) target

/-- One entry of the definition map passed to `createModals`:
`{ state?: IState; result?: unknown }`.  An absent `state` is the empty
object, an absent `result` is `undefined`. -/
structure ModalDef where
  initialState : List (String × JSVal)
  result : JSVal
deriving DecidableEq, Repr

/-- The runtime data scoped to one modal name by the `createModal`
closure: its sub-state object, the captured `modal.result`, and the
`resolver` slot (`let resolver: ((res) => void) | null`), holding the
promise id of the pending `open` suspension when set. -/
structure ModalState where
  fields : List (String × JSVal)
  result : JSVal
  resolver : Option Nat
deriving DecidableEq, Repr

/-- The whole registry state produced by `createModals`: the global
`current` register, one `ModalState` per registered name, the promise
pool (`none` = pending), the log of resolver invocations, and the
fresh-promise-id counter. -/
structure Registry where
  current : Option String
  modals : List (String × ModalState)
  promises : List (Nat × Option JSVal)
  resolveCalls : List (Nat × JSVal)
  nextId : Nat
deriving DecidableEq, Repr

/-- The per-name part of `createModal`: seed the sub-state from
`modal.state` (the `isCurrent` flag is the derived projection
`isCurrent` below, never stored), capture `modal.result`, and leave the
`resolver` slot empty. -/
def createModal (d : ModalDef) : ModalState :=
  { fields := d.initialState, result := d.result, resolver := none }

/-- `createModals`: reduce over the keys of the definition map, building
one modal slot per name, with the global `current` initialised to the
absence sentinel `null` (here `none`). -/
def createModals (defs : List (String × ModalDef)) : Registry :=
  { current := none
    modals := defs.map (fun p => (p.1, createModal p.2))
    promises := []
    resolveCalls := []
    nextId := 0 }

/-- The derived `isCurrent` flag of a modal:
`derived((_, root) => root.modals.current === name)`. -/
def isCurrent (r : Registry) (name : String) : Bool :=
  r.current = some name

/-- Update the `ModalState` stored under one name, leaving every other
entry unchanged. -/
def updateModal (ms : List (String × ModalState)) (name : String)
    (f : ModalState → ModalState) : List (String × ModalState) :=
  ms.map (fun p => if p.1 = name then (p.1, f p.2) else p)

/-- Invoke a resolver on the promise pool: the promise with this id is
settled to the given value if it is still pending; a promise that is
already settled keeps its first value (JavaScript promise semantics). -/
def resolvePromise (ps : List (Nat × Option JSVal)) (pid : Nat)
    (v : JSVal) : List (Nat × Option JSVal) :=
  ps.map (fun p =>
    if p.1 = pid then (p.1, some (p.2.getD v)) else p)

/-- The `open` action scoped to `name`:
sets `state.modals.current = name`, performs
`Object.assign(state.modals[name], newState)`, and returns a fresh
promise whose `resolve` is stored in the `resolver` slot.  The result is
the new registry state together with the id of the returned promise. -/
def openModal (r : Registry) (name : String)
    (newState : List (String × JSVal)) : Registry × Nat :=
  let pid := r.nextId
  ({ current := some name
     modals := updateModal r.modals name (fun m =>
       { m with fields := assignFields m.fields newState
                resolver := some pid })
     promises := r.promises ++ [(pid, none)]
     resolveCalls := r.resolveCalls
     nextId := pid + 1 }, pid)

/-- The `close` action scoped to `name`:
sets `state.modals.current = null`, and, when the `resolver` slot is
non-empty, invokes the stored resolver with `payload || modal.result`.
The slot itself is not cleared. -/
def closeModal (r : Registry) (name : String) (payload : JSVal) :
    Registry :=
  match alookup r.modals name with
  | none => { r with current := none }
  | some m =>
    match m.resolver with
    | none => { r with current := none }
    | some pid =>
      { r with
        current := none
        promises := resolvePromise r.promises pid (jsOr payload m.result)
        resolveCalls := r.resolveCalls ++ [(pid, jsOr payload m.result)] }

/-- The value a promise of the pool has settled to, if any
(`none` = still pending or never created). -/
def promiseValue (r : Registry) (pid : Nat) : Option JSVal :=
  (alookup r.promises pid).bind id

/-- One invocation of an action produced by `createModals`. -/
inductive Op where
  | opOpen (name : String) (newState : List (String × JSVal)) : Op
  | opClose (name : String) (payload : JSVal) : Op
deriving DecidableEq, Repr

/-- The registry state after one action invocation (the promise returned
by `open` is dropped). -/
def applyOp (r : Registry) : Op → Registry
  | .opOpen n s => (openModal r n s).1
  | .opClose n p => closeModal r n p

/-- The registry state after a sequence of action invocations. -/
def run (r : Registry) (ops : List Op) : Registry :=
  ops.foldl applyOp r

/-- The name an operation is scoped to. -/
def Op.name : Op → String
  | .opOpen n _ => n
  | .opClose n _ => n

/-- A name is registered in the registry when it has a modal slot. -/
def registered (r : Registry) (name : String) : Bool :=
  (alookup r.modals name).isSome

/-! ## Association-list lemmas -/

theorem alookup_map_entry {α β γ : Type} [DecidableEq α] (g : α → β → γ)
    (l : List (α × β)) (k : α) :
    alookup (l.map (fun p => (p.1, g p.1 p.2))) k = (alookup l k).map (g k) := by
  induction l with
  | nil => rfl
  | cons p rest ih =>
    by_cases h : p.1 = k
    · subst h
      simp [alookup]
    · simp [alookup, h, ih]

theorem alookup_append_left {α β : Type} [DecidableEq α]
    {l₁ : List (α × β)} (l₂ : List (α × β)) {k : α} {v : β}
    (h : alookup l₁ k = some v) : alookup (l₁ ++ l₂) k = some v := by
  induction l₁ with
  | nil => simp [alookup] at h
  | cons p rest ih =>
    by_cases hk : p.1 = k
    · simp [alookup, hk] at h ⊢
      exact h
    · simp [alookup, hk] at h ⊢
      exact ih h

theorem alookup_append_none {α β : Type} [DecidableEq α]
    {l₁ : List (α × β)} (l₂ : List (α × β)) {k : α}
    (h : alookup l₁ k = none) : alookup (l₁ ++ l₂) k = alookup l₂ k := by
  induction l₁ with
  | nil => rfl
  | cons p rest ih =>
    by_cases hk : p.1 = k
    · simp [alookup, hk] at h
    · simp [alookup, hk] at h ⊢
      exact ih h

theorem alookup_none_of_ne {α β : Type} [DecidableEq α]
    {l : List (α × β)} {k : α} (h : ∀ p ∈ l, p.1 ≠ k) :
    alookup l k = none := by
  induction l with
  | nil => rfl
  | cons p rest ih =>
    have hp : p.1 ≠ k := h p (by simp)
    simp only [alookup, if_neg hp]
    exact ih (fun q hq => h q (by simp [hq]))

theorem alookup_mem {α β : Type} [DecidableEq α]
    {l : List (α × β)} {k : α} {v : β}
    (h : alookup l k = some v) : (k, v) ∈ l := by
  induction l with
  | nil => simp [alookup] at h
  | cons p rest ih =>
    obtain ⟨a, b⟩ := p
    by_cases hk : a = k
    · simp only [alookup, if_pos hk] at h
      subst hk
      cases h
      exact List.mem_cons_self _ _
    · simp only [alookup, if_neg hk] at h
      exact List.mem_cons_of_mem _ (ih h)

theorem updateModal_eq_map (ms : List (String × ModalState)) (name : String)
    (f : ModalState → ModalState) :
    updateModal ms name f
      = ms.map (fun p => (p.1, if p.1 = name then f p.2 else p.2)) := by
  unfold updateModal
  congr 1
  funext p
  by_cases h : p.1 = name <;> simp [h]

theorem alookup_updateModal (ms : List (String × ModalState)) (name : String)
    (f : ModalState → ModalState) (k : String) :
    alookup (updateModal ms name f) k
      = (alookup ms k).map (fun x => if k = name then f x else x) := by
  rw [updateModal_eq_map]
  exact alookup_map_entry (fun a b => if a = name then f b else b) ms k

theorem resolvePromise_eq_map (ps : List (Nat × Option JSVal)) (pid : Nat)
    (v : JSVal) :
    resolvePromise ps pid v
      = ps.map (fun p => (p.1, if p.1 = pid then some (p.2.getD v) else p.2)) := by
  unfold resolvePromise
  congr 1
  funext p
  by_cases h : p.1 = pid <;> simp [h]

theorem alookup_resolvePromise (ps : List (Nat × Option JSVal)) (pid : Nat)
    (v : JSVal) (q : Nat) :
    alookup (resolvePromise ps pid v) q
      = (alookup ps q).map (fun x => if q = pid then some (x.getD v) else x) := by
  rw [resolvePromise_eq_map]
  exact alookup_map_entry (fun a b => if a = pid then some (b.getD v) else b) ps q

theorem alookup_setField_ne (fields : List (String × JSVal)) {k k' : String}
    (v : JSVal) (h : k' ≠ k) :
    alookup (setField fields k' v) k = alookup fields k := by
  unfold setField
  by_cases hmem : fields.any (fun p => p.1 = k')
  · rw [if_pos hmem]
    have : fields.map (fun p => if p.1 = k' then (p.1, v) else p)
        = fields.map (fun p => (p.1, if p.1 = k' then v else p.2)) := by
      congr 1
      funext p
      by_cases hp : p.1 = k' <;> simp [hp]
    rw [this, alookup_map_entry (fun a b => if a = k' then v else b) fields k]
    simp [show ¬ (k = k') from fun hk => h hk.symm]
  · rw [if_neg hmem]
    cases hf : alookup fields k with
    | some w => exact alookup_append_left _ hf
    | none =>
      rw [alookup_append_none _ hf]
      simp [alookup, h]

theorem alookup_assignFields_not_mem {src : List (String × JSVal)} {k : String}
    (target : List (String × JSVal)) (h : ∀ p ∈ src, p.1 ≠ k) :
    alookup (assignFields target src) k = alookup target k := by
  induction src generalizing target with
  | nil => rfl
  | cons p rest ih =>
    have hp : p.1 ≠ k := h p (by simp)
    unfold assignFields
    simp only [List.foldl_cons]
    rw [show (List.foldl (fun t q => setField t q.1 q.2) (setField target p.1 p.2) rest)
        = assignFields (setField target p.1 p.2) rest from rfl]
    rw [ih _ (fun q hq => h q (by simp [hq]))]
    exact alookup_setField_ne target p.2 hp

theorem createModals_modals_lookup (defs : List (String × ModalDef)) (n : String) :
    alookup (createModals defs).modals n = (alookup defs n).map createModal := by
  exact alookup_map_entry (fun _ d => createModal d) defs n

theorem closeModal_modals (r : Registry) (n : String) (payload : JSVal) :
    (closeModal r n payload).modals = r.modals := by
  unfold closeModal
  split
  · rfl
  · split <;> rfl

/-! ## Case equations for `closeModal` and membership lemmas -/

theorem closeModal_eq_unregistered {r : Registry} {n : String} (payload : JSVal)
    (h : alookup r.modals n = none) :
    closeModal r n payload = { r with current := none } := by
  unfold closeModal
  simp only [h]

theorem closeModal_eq_noresolver {r : Registry} {n : String} {m : ModalState}
    (payload : JSVal) (h : alookup r.modals n = some m)
    (hr : m.resolver = none) :
    closeModal r n payload = { r with current := none } := by
  unfold closeModal
  simp only [h, hr]

theorem closeModal_eq_resolve {r : Registry} {n : String} {m : ModalState}
    {pid : Nat} (payload : JSVal) (h : alookup r.modals n = some m)
    (hr : m.resolver = some pid) :
    closeModal r n payload
      = { r with
          current := none
          promises := resolvePromise r.promises pid (jsOr payload m.result)
          resolveCalls := r.resolveCalls ++ [(pid, jsOr payload m.result)] } := by
  unfold closeModal
  simp only [h, hr]

theorem mem_updateModal {ms : List (String × ModalState)} {name : String}
    {f : ModalState → ModalState} {q : String × ModalState}
    (hq : q ∈ updateModal ms name f) :
    ∃ p ∈ ms, q = (p.1, if p.1 = name then f p.2 else p.2) := by
  rw [updateModal_eq_map] at hq
  obtain ⟨p, hp, hpq⟩ := List.mem_map.mp hq
  exact ⟨p, hp, hpq.symm⟩

theorem mem_resolvePromise {ps : List (Nat × Option JSVal)} {pid : Nat}
    {v : JSVal} {q : Nat × Option JSVal}
    (hq : q ∈ resolvePromise ps pid v) :
    ∃ p ∈ ps, q = (p.1, if p.1 = pid then some (p.2.getD v) else p.2) := by
  rw [resolvePromise_eq_map] at hq
  obtain ⟨p, hp, hpq⟩ := List.mem_map.mp hq
  exact ⟨p, hp, hpq.symm⟩

/-! ## Well-formedness: every promise id and resolver id is below the
fresh-id counter.  This holds of any registry reachable from
`createModals` and makes the freshly allocated id of `openModal` really
fresh. -/

/-- Well-formedness of a registry: all promise-pool keys and all stored
resolver ids are below the fresh-id counter. -/
def WF (r : Registry) : Prop :=
  (∀ p ∈ r.promises, p.1 < r.nextId) ∧
  (∀ q ∈ r.modals, ∀ pid ∈ q.2.resolver, pid < r.nextId)

theorem WF_createModals (defs : List (String × ModalDef)) :
    WF (createModals defs) := by
  constructor
  · intro p hp
    simp [createModals] at hp
  · intro q hq pid hpid
    simp only [createModals] at hq
    obtain ⟨p, hp, hpq⟩ := List.mem_map.mp hq
    rw [← hpq] at hpid
    simp [createModal] at hpid

theorem WF_openModal (r : Registry) (n : String)
    (s : List (String × JSVal)) (h : WF r) : WF (openModal r n s).1 := by
  obtain ⟨h1, h2⟩ := h
  constructor
  · intro p hp
    simp only [openModal] at hp ⊢
    rcases List.mem_append.mp hp with hp | hp
    · exact Nat.lt_succ_of_lt (h1 p hp)
    · simp at hp
      rw [hp]
      exact Nat.lt_succ_self _
  · intro q hq pid hpid
    simp only [openModal] at hq ⊢
    obtain ⟨p, hp, hpq⟩ := mem_updateModal hq
    rw [hpq] at hpid
    by_cases hn : p.1 = n
    · simp only [hn, if_pos rfl] at hpid
      simp at hpid
      rw [hpid]
      exact Nat.lt_succ_self _
    · simp only [if_neg hn] at hpid
      exact Nat.lt_succ_of_lt (h2 p hp pid hpid)

theorem WF_closeModal (r : Registry) (n : String) (payload : JSVal)
    (h : WF r) : WF (closeModal r n payload) := by
  obtain ⟨h1, h2⟩ := h
  cases hm : alookup r.modals n with
  | none =>
    rw [closeModal_eq_unregistered payload hm]
    exact ⟨h1, h2⟩
  | some m =>
    cases hr : m.resolver with
    | none =>
      rw [closeModal_eq_noresolver payload hm hr]
      exact ⟨h1, h2⟩
    | some pid =>
      rw [closeModal_eq_resolve payload hm hr]
      constructor
      · intro p hp
        obtain ⟨p₀, hp₀, hpq⟩ := mem_resolvePromise hp
        rw [hpq]
        exact h1 p₀ hp₀
      · exact h2

theorem WF_applyOp (r : Registry) (o : Op) (h : WF r) : WF (applyOp r o) := by
  cases o with
  | opOpen n s => exact WF_openModal r n s h
  | opClose n p => exact WF_closeModal r n p h

theorem run_preserves {P : Registry → Prop} {Q : Op → Prop}
    (hstep : ∀ r o, Q o → P r → P (applyOp r o)) :
    ∀ (ops : List Op) (r : Registry), (∀ o ∈ ops, Q o) → P r → P (run r ops)
  | [], _, _, h => h
  | o :: ops, r, hq, h =>
    run_preserves hstep ops (applyOp r o)
      (fun o' ho' => hq o' (List.mem_cons_of_mem _ ho'))
      (hstep r o (hq o (List.mem_cons_self _ _)) h)

theorem WF_run (ops : List Op) (r : Registry) (h : WF r) : WF (run r ops) :=
  run_preserves (fun r' o _ h' => WF_applyOp r' o h') ops r (fun _ _ => trivial) h

/-! ## Unfolding equations for `openModal` -/

theorem openModal_fst (r : Registry) (n : String) (s : List (String × JSVal)) :
    (openModal r n s).1
      = { current := some n
          modals := updateModal r.modals n (fun m =>
            { m with fields := assignFields m.fields s
                     resolver := some r.nextId })
          promises := r.promises ++ [(r.nextId, none)]
          resolveCalls := r.resolveCalls
          nextId := r.nextId + 1 } := rfl

theorem openModal_snd (r : Registry) (n : String) (s : List (String × JSVal)) :
    (openModal r n s).2 = r.nextId := rfl

theorem alookup_open_self {r : Registry} {n : String} {m : ModalState}
    (s : List (String × JSVal)) (h : alookup r.modals n = some m) :
    alookup (openModal r n s).1.modals n
      = some { m with fields := assignFields m.fields s
                      resolver := some r.nextId } := by
  have hq : alookup (updateModal r.modals n (fun m' =>
      { m' with fields := assignFields m'.fields s
                resolver := some r.nextId })) n
      = some { m with fields := assignFields m.fields s
                      resolver := some r.nextId } := by
    rw [alookup_updateModal, h]
    simp
  exact hq

theorem promise_fresh {r : Registry} (h : WF r) :
    alookup r.promises r.nextId = none := by
  apply alookup_none_of_ne
  intro p hp
  exact Nat.ne_of_lt (h.1 p hp)

/-- Core resolution lemma: on any well-formed registry where `n` is
registered with modal state `m`, an `open(n)` followed by `close(n,
payload)` settles the promise returned by `open` to
`payload || m.result` — the JavaScript disjunction the source applies. -/
theorem open_close_resolution (r : Registry) (n : String)
    (s : List (String × JSVal)) (m : ModalState) (payload : JSVal)
    (hwf : WF r) (hreg : alookup r.modals n = some m) :
    promiseValue (closeModal (openModal r n s).1 n payload)
      (openModal r n s).2 = some (jsOr payload m.result) := by
  have hopen := alookup_open_self s hreg
  rw [closeModal_eq_resolve payload hopen rfl, openModal_snd]
  unfold promiseValue
  simp only [openModal_fst]
  rw [alookup_resolvePromise, alookup_append_none _ (promise_fresh hwf)]
  simp [alookup]

/-! ## The orphaned-suspension invariant (for the re-open behavior) -/

/-- The suspension `pid` has been orphaned in registry `r`: it is still
pending, its id is stale (strictly below the fresh-id counter), and no
resolver slot points at it any more — so no later operation can settle
it. -/
def Orphaned (pid : Nat) (r : Registry) : Prop :=
  pid < r.nextId ∧ alookup r.promises pid = some none ∧
  ∀ q ∈ r.modals, ∀ j ∈ q.2.resolver, j ≠ pid

theorem Orphaned_openModal {pid : Nat} {r : Registry} (n : String)
    (s : List (String × JSVal)) (h : Orphaned pid r) :
    Orphaned pid (openModal r n s).1 := by
  obtain ⟨h1, h2, h3⟩ := h
  refine ⟨Nat.lt_succ_of_lt h1, alookup_append_left _ h2, ?_⟩
  intro q hq j hj
  have hq' : q ∈ updateModal r.modals n (fun m =>
      { m with fields := assignFields m.fields s
               resolver := some r.nextId }) := hq
  obtain ⟨p, hp, hpq⟩ := mem_updateModal hq'
  rw [hpq] at hj
  by_cases hn : p.1 = n
  · simp only [hn, if_pos rfl] at hj
    simp at hj
    rw [← hj]
    exact Nat.ne_of_gt h1
  · simp only [if_neg hn] at hj
    exact h3 p hp j hj

theorem Orphaned_closeModal {pid : Nat} {r : Registry} (n : String)
    (payload : JSVal) (h : Orphaned pid r) :
    Orphaned pid (closeModal r n payload) := by
  obtain ⟨h1, h2, h3⟩ := h
  cases hm : alookup r.modals n with
  | none =>
    rw [closeModal_eq_unregistered payload hm]
    exact ⟨h1, h2, h3⟩
  | some m =>
    cases hr : m.resolver with
    | none =>
      rw [closeModal_eq_noresolver payload hm hr]
      exact ⟨h1, h2, h3⟩
    | some j =>
      rw [closeModal_eq_resolve payload hm hr]
      have hjpid : j ≠ pid := h3 (n, m) (alookup_mem hm) j (by simp [hr])
      refine ⟨h1, ?_, h3⟩
      show alookup (resolvePromise r.promises j _) pid = some none
      rw [alookup_resolvePromise, h2]
      simp [show ¬ pid = j from fun he => hjpid he.symm]

theorem Orphaned_applyOp {pid : Nat} {r : Registry} (o : Op)
    (h : Orphaned pid r) : Orphaned pid (applyOp r o) := by
  cases o with
  | opOpen n s => exact Orphaned_openModal n s h
  | opClose n p => exact Orphaned_closeModal n p h

theorem Orphaned_run {pid : Nat} (ops : List Op) (r : Registry)
    (h : Orphaned pid r) : Orphaned pid (run r ops) :=
  run_preserves (fun _ o _ h' => Orphaned_applyOp o h') ops r
    (fun _ _ => trivial) h

/-! ## Further helper lemmas shared by the claim theorems -/

theorem closeModal_current (r : Registry) (n : String) (payload : JSVal) :
    (closeModal r n payload).current = none := by
  unfold closeModal
  split
  · rfl
  · split <;> rfl

theorem openModal_current (r : Registry) (n : String)
    (s : List (String × JSVal)) : (openModal r n s).1.current = some n := rfl

theorem createModals_resolver_none {defs : List (String × ModalDef)}
    {n : String} {m : ModalState}
    (h : alookup (createModals defs).modals n = some m) :
    m.resolver = none := by
  rw [createModals_modals_lookup] at h
  cases hd : alookup defs n with
  | none =>
    rw [hd] at h
    simp at h
  | some d =>
    rw [hd] at h
    simp at h
    rw [← h]
    rfl

theorem closeModal_resolveCalls_resolve {r : Registry} {n : String}
    {m : ModalState} {pid : Nat} (payload : JSVal)
    (h : alookup r.modals n = some m) (hr : m.resolver = some pid) :
    (closeModal r n payload).resolveCalls
      = r.resolveCalls ++ [(pid, jsOr payload m.result)] := by
  rw [closeModal_eq_resolve payload h hr]

/-- The demo definition map, taken from the spec's scenario section:
`confirmDelete` has `defaultResult: false` and no initial state,
`rename` has `initialState: {value: ''}` and no `defaultResult`. -/
def demoDefs : List (String × ModalDef) :=
  [("confirmDelete", { initialState := [], result := .bool false }),
   ("rename", { initialState := [("value", .str "")], result := .undefined })]

/-- The registry constructed from the demo definitions. -/
def demoRegistry : Registry := createModals demoDefs

/-! ## Claim theorems -/

/-- C3: for every registered modal name `n`, `open(n)` sets the global
`current` field to `n`, after which the derived `isCurrent` flag is true
for `n` and false for every other registered modal name. -/
theorem C3_open_sets_current (r : Registry) (n : String)
    (s : List (String × JSVal)) (_hreg : registered r n = true) :
    (openModal r n s).1.current = some n
      ∧ isCurrent (openModal r n s).1 n = true
      ∧ ∀ m, registered r m = true → m ≠ n →
          isCurrent (openModal r n s).1 m = false := by
  refine ⟨rfl, ?_, ?_⟩
  · simp [isCurrent, openModal_fst]
  · intro m _ hmn
    simp only [isCurrent, openModal_fst]
    simp [Ne.symm hmn]

/-- Witness for C3 on the demo registry: opening `confirmDelete` makes
`current` equal to it, its own flag true, and `rename`'s flag false. -/
theorem C3_witness :
    (openModal demoRegistry "confirmDelete" []).1.current
        = some "confirmDelete"
    ∧ isCurrent (openModal demoRegistry "confirmDelete" []).1
        "confirmDelete" = true
    ∧ isCurrent (openModal demoRegistry "confirmDelete" []).1
        "rename" = false :=
  ⟨(C3_open_sets_current demoRegistry "confirmDelete" [] (by decide)).1,
   (C3_open_sets_current demoRegistry "confirmDelete" [] (by decide)).2.1,
   (C3_open_sets_current demoRegistry "confirmDelete" [] (by decide)).2.2
     "rename" (by decide) (by decide)⟩

/-- C4: `close(n)` sets `current` to the absence sentinel for every
prior value of `current` and every name `n` — there is no check that `n`
matches the active modal. -/
theorem C4_close_unconditionally_clears_current (r : Registry) (n : String)
    (payload : JSVal) : (closeModal r n payload).current = none :=
  closeModal_current r n payload

/-- C7: `close(n)` on a freshly constructed registry with no prior
`open(n)` leaves `current` at the absence sentinel, invokes no resolver,
settles no promise (the pool stays empty), and leaves every sub-state
unchanged; no error path exists (the operation is total). -/
theorem C7_close_without_open (defs : List (String × ModalDef)) (n : String)
    (payload : JSVal) :
    (closeModal (createModals defs) n payload).current = none
    ∧ (closeModal (createModals defs) n payload).resolveCalls = []
    ∧ (closeModal (createModals defs) n payload).promises = []
    ∧ (closeModal (createModals defs) n payload).modals
        = (createModals defs).modals := by
  cases hm : alookup (createModals defs).modals n with
  | none =>
    rw [closeModal_eq_unregistered payload hm]
    exact ⟨rfl, rfl, rfl, rfl⟩
  | some m =>
    rw [closeModal_eq_noresolver payload hm (createModals_resolver_none hm)]
    exact ⟨rfl, rfl, rfl, rfl⟩

/-- C1 counterexample: the claim "the payload is used whenever it is
provided, including falsy values such as `false`" is false on the code.
`close` runs `resolver(payload || modal.result)`, so with one modal
`"modal"` (no `defaultResult`, i.e. `undefined`), `open("modal")`
followed by `close("modal", false)` settles the suspension to
`undefined`, not to the provided payload `false`. -/
theorem C1_counterexample :
    promiseValue
        (closeModal
          (openModal
            (createModals [("modal", { initialState := [], result := .undefined })])
            "modal" []).1
          "modal" (.bool false))
        (openModal
          (createModals [("modal", { initialState := [], result := .undefined })])
          "modal" []).2
      ≠ some (.bool false)
    ∧ promiseValue
        (closeModal
          (openModal
            (createModals [("modal", { initialState := [], result := .undefined })])
            "modal" []).1
          "modal" (.bool false))
        (openModal
          (createModals [("modal", { initialState := [], result := .undefined })])
          "modal" []).2
      = some .undefined := by
  constructor
  · decide
  · decide

/-- C1 amended: after `open(n)` then `close(n, payload)` on a
well-formed registry in which `n` is registered, the suspension returned
by `open` resolves to the payload exactly when the payload is truthy; a
falsy payload (`false`, `0`, the empty string, `null`, `undefined`) or
an absent one is replaced by the modal's configured `defaultResult`
(which is `undefined` when none was configured). -/
theorem C1_amended_resolves_payload_or_default (r : Registry) (n : String)
    (s : List (String × JSVal)) (m : ModalState) (payload : JSVal)
    (hwf : WF r) (hreg : alookup r.modals n = some m) :
    promiseValue (closeModal (openModal r n s).1 n payload)
      (openModal r n s).2
      = some (if truthy payload then payload else m.result) := by
  have h := open_close_resolution r n s m payload hwf hreg
  rw [jsOr] at h
  exact h

/-- Witness for the amended C1 on the demo registry: a truthy payload
(`true`) is used even though `confirmDelete` has `defaultResult` `false`. -/
theorem C1_witness :
    alookup demoRegistry.modals "confirmDelete"
        = some { fields := [], result := .bool false, resolver := none }
    ∧ promiseValue
        (closeModal (openModal demoRegistry "confirmDelete" []).1
          "confirmDelete" (.bool true))
        (openModal demoRegistry "confirmDelete" []).2
      = some (.bool true) :=
  ⟨by decide,
   C1_amended_resolves_payload_or_default demoRegistry "confirmDelete" []
     { fields := [], result := .bool false, resolver := none } (.bool true)
     (WF_createModals demoDefs) (by decide)⟩

/-- C2: after `open(n)` then `close(n)` with no payload (`undefined`),
the suspension resolves to the modal's configured `defaultResult`
(`m.result`); since an unconfigured `defaultResult` is itself
`undefined`, this yields the absence value in that case. -/
theorem C2_close_without_payload_resolves_default (r : Registry)
    (n : String) (s : List (String × JSVal)) (m : ModalState)
    (hwf : WF r) (hreg : alookup r.modals n = some m) :
    promiseValue (closeModal (openModal r n s).1 n .undefined)
      (openModal r n s).2 = some m.result :=
  open_close_resolution r n s m .undefined hwf hreg

/-- Witness for C2 on the demo registry: closing `rename` (no
`defaultResult` configured) with no payload resolves to `undefined`. -/
theorem C2_witness :
    alookup demoRegistry.modals "rename"
        = some { fields := [("value", .str "")], result := .undefined,
                 resolver := none }
    ∧ promiseValue
        (closeModal (openModal demoRegistry "rename" []).1
          "rename" .undefined)
        (openModal demoRegistry "rename" []).2
      = some .undefined :=
  ⟨by decide,
   C2_close_without_payload_resolves_default demoRegistry "rename" []
     { fields := [("value", .str "")], result := .undefined,
       resolver := none }
     (WF_createModals demoDefs) (by decide)⟩

/-- C5: `open(n, s)` shallow-merges `s` into `n`'s persistent sub-state:
the new sub-state is exactly `Object.assign` of the old one, any field
not named in `s` keeps its previous value, `close` leaves every
sub-state untouched, and concretely `open(n, {a: 1})` followed by
`open(n, {b: 2})` with no intervening close yields a sub-state holding
both `a = 1` and `b = 2`. -/
theorem C5_open_shallow_merge (r : Registry) (n k : String)
    (s : List (String × JSVal)) (m : ModalState)
    (hreg : alookup r.modals n = some m) (hk : ∀ p ∈ s, p.1 ≠ k) :
    (alookup (openModal r n s).1.modals n).map ModalState.fields
        = some (assignFields m.fields s)
    ∧ alookup (assignFields m.fields s) k = alookup m.fields k
    ∧ (∀ (q : Registry) (a : String) (payload : JSVal),
        (closeModal q a payload).modals = q.modals)
    ∧ (alookup
        (run (createModals [("modal", { initialState := [], result := .undefined })])
          [.opOpen "modal" [("a", .num 1)], .opOpen "modal" [("b", .num 2)]]).modals
        "modal").map ModalState.fields
      = some [("a", .num 1), ("b", .num 2)] := by
  refine ⟨?_, alookup_assignFields_not_mem m.fields hk,
    fun q a payload => closeModal_modals q a payload, by decide⟩
  rw [alookup_open_self s hreg]
  rfl

/-- Witness for C5 on the demo registry: merging an unrelated field into
`rename`'s sub-state keeps the existing `value` field. -/
theorem C5_witness :
    (alookup (openModal demoRegistry "rename" [("extra", .num 1)]).1.modals
        "rename").map ModalState.fields
      = some (assignFields [("value", .str "")] [("extra", .num 1)])
    ∧ alookup (assignFields [("value", .str "")] [("extra", .num 1)]) "value"
      = alookup [("value", .str "")] "value"
    ∧ (closeModal demoRegistry "rename" .undefined).modals
      = demoRegistry.modals :=
  ⟨(C5_open_shallow_merge demoRegistry "rename" "value" [("extra", .num 1)]
      { fields := [("value", .str "")], result := .undefined,
        resolver := none } (by decide) (by decide)).1,
   (C5_open_shallow_merge demoRegistry "rename" "value" [("extra", .num 1)]
      { fields := [("value", .str "")], result := .undefined,
        resolver := none } (by decide) (by decide)).2.1,
   (C5_open_shallow_merge demoRegistry "rename" "value" [("extra", .num 1)]
      { fields := [("value", .str "")], result := .undefined,
        resolver := none } (by decide) (by decide)).2.2.1
     demoRegistry "rename" .undefined⟩

/-- C10: an operation scoped to `n` leaves the entry of every other
registered modal `m` — its sub-state fields and its resolver slot —
unchanged, for both `open` and `close`. -/
theorem C10_other_modals_untouched (r : Registry) (n m : String)
    (s : List (String × JSVal)) (payload : JSVal)
    (hnm : m ≠ n) (_hn : registered r n = true)
    (_hm : registered r m = true) :
    alookup (openModal r n s).1.modals m = alookup r.modals m
    ∧ alookup (closeModal r n payload).modals m = alookup r.modals m := by
  constructor
  · have h := alookup_updateModal r.modals n (fun q =>
      { q with fields := assignFields q.fields s
               resolver := some r.nextId }) m
    simp only [if_neg hnm] at h
    simp at h
    exact h
  · rw [closeModal_modals]

/-- Witness for C10 on the demo registry: opening or closing
`confirmDelete` leaves `rename`'s entry unchanged. -/
theorem C10_witness :
    alookup (openModal demoRegistry "confirmDelete" [("a", .num 1)]).1.modals
        "rename" = alookup demoRegistry.modals "rename"
    ∧ alookup (closeModal demoRegistry "confirmDelete" .undefined).modals
        "rename" = alookup demoRegistry.modals "rename" :=
  C10_other_modals_untouched demoRegistry "confirmDelete" "rename"
    [("a", .num 1)] .undefined (by decide) (by decide) (by decide)

/-- C8: in every state reachable from the constructed registry by a
sequence of `open`/`close` invocations — whose names are, as in the
source, exactly the names registered at construction time — the
`current` field is either the absence sentinel or a registered name. -/
theorem C8_current_is_registered_or_none (defs : List (String × ModalDef))
    (ops : List Op)
    (hops : ops.all (fun o => registered (createModals defs) o.name) = true) :
    (run (createModals defs) ops).current = none
    ∨ ∃ n, (run (createModals defs) ops).current = some n
        ∧ registered (createModals defs) n = true := by
  have hops' : ∀ o ∈ ops, registered (createModals defs) o.name = true := by
    rw [List.all_eq_true] at hops
    intro o ho
    exact hops o ho
  refine run_preserves
    (P := fun r => r.current = none
      ∨ ∃ n, r.current = some n ∧ registered (createModals defs) n = true)
    ?_ ops (createModals defs) hops' (Or.inl rfl)
  intro r o ho _
  cases o with
  | opOpen a s => exact Or.inr ⟨a, rfl, ho⟩
  | opClose a p =>
    left
    exact closeModal_current r a p

/-- Witness for C8: a concrete run on the demo registry ends with
`current = none`, which satisfies the invariant. -/
theorem C8_witness :
    (run (createModals demoDefs)
        [.opOpen "confirmDelete" [], .opClose "rename" .undefined]).current
        = none
    ∨ ∃ n, (run (createModals demoDefs)
        [.opOpen "confirmDelete" [], .opClose "rename" .undefined]).current
          = some n
        ∧ registered (createModals demoDefs) n = true :=
  C8_current_is_registered_or_none demoDefs
    [.opOpen "confirmDelete" [], .opClose "rename" .undefined] (by decide)

/-- C9 (implicit): `close` never clears the resolver slot.  After
`open(n)` then `close(n, p₁)`, the slot still holds the same resolver,
and a second `close(n, p₂)` with no intervening `open` invokes it again
with `p₂ || defaultResult` (recorded in the invocation log) instead of
being a no-op; slots are empty only in a freshly constructed registry,
and no operation ever returns a non-empty slot to empty. -/
theorem C9_close_keeps_resolver (r : Registry) (n : String)
    (s : List (String × JSVal)) (m : ModalState) (p₁ p₂ : JSVal)
    (hreg : alookup r.modals n = some m) :
    (alookup (closeModal (openModal r n s).1 n p₁).modals n).map
        ModalState.resolver = some (some (openModal r n s).2)
    ∧ (closeModal (closeModal (openModal r n s).1 n p₁) n p₂).resolveCalls
      = r.resolveCalls
        ++ [((openModal r n s).2, jsOr p₁ m.result),
            ((openModal r n s).2, jsOr p₂ m.result)]
    ∧ (∀ (defs : List (String × ModalDef)) (a : String) (q : ModalState),
        alookup (createModals defs).modals a = some q → q.resolver = none)
    ∧ (∀ (r' : Registry) (o : Op) (a : String) (q : ModalState),
        alookup r'.modals a = some q → q.resolver.isSome = true →
        ∃ q', alookup (applyOp r' o).modals a = some q'
          ∧ q'.resolver.isSome = true) := by
  have h1 := alookup_open_self s hreg
  have hc1m : (closeModal (openModal r n s).1 n p₁).modals
      = (openModal r n s).1.modals := closeModal_modals _ _ _
  have hl2 : alookup (closeModal (openModal r n s).1 n p₁).modals n
      = some { m with fields := assignFields m.fields s
                      resolver := some r.nextId } := by
    rw [hc1m]
    exact h1
  refine ⟨?_, ?_, ?_, ?_⟩
  · rw [hl2]
    rfl
  · rw [closeModal_resolveCalls_resolve p₂ hl2 rfl,
      closeModal_resolveCalls_resolve p₁ h1 rfl]
    simp [openModal_fst, openModal_snd]
  · intro defs a q hq
    exact createModals_resolver_none hq
  · intro r' o a q hq hsome
    cases o with
    | opOpen b t =>
      have h := alookup_updateModal r'.modals b (fun x =>
        { x with fields := assignFields x.fields t
                 resolver := some r'.nextId }) a
      by_cases hab : a = b
      · refine ⟨{ q with fields := assignFields q.fields t
                         resolver := some r'.nextId }, ?_, rfl⟩
        show alookup (updateModal r'.modals b (fun x =>
          { x with fields := assignFields x.fields t
                   resolver := some r'.nextId })) a
          = some { q with fields := assignFields q.fields t
                          resolver := some r'.nextId }
        rw [h, hq]
        simp [hab]
      · refine ⟨q, ?_, hsome⟩
        show alookup (updateModal r'.modals b (fun x =>
          { x with fields := assignFields x.fields t
                   resolver := some r'.nextId })) a = some q
        rw [h, hq]
        simp [hab]
    | opClose b p =>
      refine ⟨q, ?_, hsome⟩
      show alookup (closeModal r' b p).modals a = some q
      rw [closeModal_modals]
      exact hq

/-- Witness for C9 on the demo registry: after open and close of
`confirmDelete`, the slot still holds resolver 0 and a second close logs
a second invocation (with the `defaultResult` `false`, both payloads
being `undefined`). -/
theorem C9_witness :
    (alookup (closeModal (openModal demoRegistry "confirmDelete" []).1
        "confirmDelete" .undefined).modals "confirmDelete").map
        ModalState.resolver
      = some (some (openModal demoRegistry "confirmDelete" []).2)
    ∧ (closeModal (closeModal (openModal demoRegistry "confirmDelete" []).1
        "confirmDelete" .undefined) "confirmDelete" .undefined).resolveCalls
      = demoRegistry.resolveCalls
        ++ [((openModal demoRegistry "confirmDelete" []).2,
              jsOr .undefined (.bool false)),
            ((openModal demoRegistry "confirmDelete" []).2,
              jsOr .undefined (.bool false))] :=
  ⟨(C9_close_keeps_resolver demoRegistry "confirmDelete" []
      { fields := [], result := .bool false, resolver := none }
      .undefined .undefined (by decide)).1,
   (C9_close_keeps_resolver demoRegistry "confirmDelete" []
      { fields := [], result := .bool false, resolver := none }
      .undefined .undefined (by decide)).2.1⟩

/-- C6: calling `open(n)` a second time before the first call's
suspension has resolved replaces the stored pending resolver with the
new promise's resolve, and the first caller's promise is never settled
by any subsequent sequence of `open`/`close` operations.  It is in
particular never rejected: like the source's promise executor, which
only captures `resolve`, the model has no rejection path at all, so
"stays pending" is the only possible fate of the orphaned suspension.
`WF r` holds of every registry reachable from `createModals`
(`WF_createModals`, `WF_run`), so `r` ranges over all reachable
states. -/
theorem C6_reopen_orphans_first_suspension (r : Registry) (n : String)
    (s₁ s₂ : List (String × JSVal)) (m : ModalState) (ops : List Op)
    (hwf : WF r) (hreg : alookup r.modals n = some m) :
    (openModal (openModal r n s₁).1 n s₂).2 ≠ (openModal r n s₁).2
    ∧ (alookup (openModal (openModal r n s₁).1 n s₂).1.modals n).map
        ModalState.resolver
      = some (some (openModal (openModal r n s₁).1 n s₂).2)
    ∧ promiseValue (run (openModal (openModal r n s₁).1 n s₂).1 ops)
        (openModal r n s₁).2 = none := by
  refine ⟨?_, ?_, ?_⟩
  · show r.nextId + 1 ≠ r.nextId
    omega
  · rw [alookup_open_self s₂ (alookup_open_self s₁ hreg)]
    rfl
  · have horph : Orphaned r.nextId (openModal (openModal r n s₁).1 n s₂).1 := by
      refine ⟨?_, ?_, ?_⟩
      · show r.nextId < r.nextId + 1 + 1
        omega
      · show alookup ((r.promises ++ [(r.nextId, none)])
            ++ [(r.nextId + 1, none)]) r.nextId = some none
        have hfresh : alookup (r.promises ++ [(r.nextId, none)]) r.nextId
            = some none := by
          rw [alookup_append_none _ (promise_fresh hwf)]
          simp [alookup]
        exact alookup_append_left _ hfresh
      · intro q hq j hj
        have hq' : q ∈ updateModal (openModal r n s₁).1.modals n (fun x =>
            { x with fields := assignFields x.fields s₂
                     resolver := some (openModal r n s₁).1.nextId }) := hq
        obtain ⟨p, hp, hpq⟩ := mem_updateModal hq'
        have hp' : p ∈ updateModal r.modals n (fun x =>
            { x with fields := assignFields x.fields s₁
                     resolver := some r.nextId }) := hp
        obtain ⟨p₀, hp₀, hpq₀⟩ := mem_updateModal hp'
        rw [hpq] at hj
        by_cases hb : p.1 = n
        · simp only [hb, if_pos rfl] at hj
          simp at hj
          rw [← hj]
          show r.nextId + 1 ≠ r.nextId
          omega
        · simp only [if_neg hb] at hj
          have hb' : ¬ p₀.1 = n := by
            intro he
            apply hb
            rw [hpq₀]
            simpa using he
          rw [hpq₀] at hj
          simp only [if_neg hb'] at hj
          have hlt := hwf.2 p₀ hp₀ j hj
          omega
    have hpend := (Orphaned_run ops _ horph).2.1
    show (alookup (run (openModal (openModal r n s₁).1 n s₂).1 ops).promises
      (openModal r n s₁).2).bind id = none
    rw [openModal_snd, hpend]
    rfl

/-- Witness for C6 on the demo registry: re-opening `confirmDelete`
bumps the stored resolver from promise 0 to promise 1, and even an
immediate `close` afterwards (which settles promise 1) leaves
promise 0 pending. -/
theorem C6_witness :
    alookup demoRegistry.modals "confirmDelete"
        = some { fields := [], result := .bool false, resolver := none }
    ∧ ((openModal (openModal demoRegistry "confirmDelete" []).1
          "confirmDelete" []).2
        ≠ (openModal demoRegistry "confirmDelete" []).2
      ∧ (alookup (openModal (openModal demoRegistry "confirmDelete" []).1
            "confirmDelete" []).1.modals "confirmDelete").map
            ModalState.resolver
        = some (some (openModal (openModal demoRegistry "confirmDelete" []).1
            "confirmDelete" []).2)
      ∧ promiseValue
          (run (openModal (openModal demoRegistry "confirmDelete" []).1
              "confirmDelete" []).1
            [Op.opClose "confirmDelete" JSVal.undefined])
          (openModal demoRegistry "confirmDelete" []).2 = none) :=
  ⟨by decide,
   C6_reopen_orphans_first_suspension demoRegistry "confirmDelete" [] []
     { fields := [], result := .bool false, resolver := none }
     [Op.opClose "confirmDelete" JSVal.undefined]
     (WF_createModals demoDefs) (by decide)⟩
